import Mathlib

/-!
Formal model of the OVH embedding adapter (`src/server.py`), a proxy that
accepts OpenAI-style embedding requests, splits the input texts into batches
of at most `MAX_BATCH_SIZE`, forwards each batch to the OVH upstream API,
and reassembles the per-batch vectors into one response.

The embedding is shallow: JSON values are modelled by `JVal`, the upstream
HTTP call by a function `Upstream`, and the Flask handler `get_embeddings`
by a pure function that also records the trace of upstream calls it issues.
-/

namespace OvhAdapter

/-- A JSON-like value, as Flask's `request.json` would produce for the
`input` field: a string, a number, a boolean, `null`, or an array. -/
inductive JVal where
  | str (s : String)
  | num (n : Int)
  | bool (b : Bool)
  | null
  | arr (elems : List JVal)

/-- Whether a `JVal` is an array (Python `isinstance(input_data, list)`). -/
def JVal.isArr : JVal → Bool
  | .arr _ => true
  | _ => false

/-- The apostrophe character, used by Python `repr` of strings. -/
def pyQuote : String := String.mk [Char.ofNat 39]

mutual

/-- Python `repr` of a JSON value (used by `str` on container elements). -/
def pyRepr : JVal → String
  | .str s => pyQuote ++ s ++ pyQuote
  | .num n => toString n
  | .bool b => if b then "True" else "False"
  | .null => "None"
  | .arr xs => "[" ++ pyReprList xs ++ "]"

/-- Python `repr` of the elements of a list, comma separated. -/
def pyReprList : List JVal → String
  | [] => ""
  | [x] => pyRepr x
  | x :: y :: rest => pyRepr x ++ ", " ++ pyReprList (y :: rest)

end

/-- Python `str` of a JSON value: a string is rendered as itself, any other
value as its `repr`-style rendering. -/
def pyStr : JVal → String
  | .str s => s
  | v => pyRepr v

/-- Python whitespace characters recognised by `str.split()` (ASCII subset). -/
def isPySpace (c : Char) : Bool :=
  c = ' ' || c = '\t' || c = '\n' || c = '\r' || c = Char.ofNat 11 || c = Char.ofNat 12

/-- Worker for `pyWords`: scans the characters, accumulating the current
word (reversed) in `acc`, and emits a word at each whitespace boundary. -/
def wordsAux (acc : List Char) : List Char → List String
  | [] => if acc.isEmpty then [] else [String.mk acc.reverse]
  | c :: cs =>
    if isPySpace c then
      if acc.isEmpty then wordsAux [] cs
      else String.mk acc.reverse :: wordsAux [] cs
    else wordsAux (c :: acc) cs

/-- Python `s.split()`: split on runs of whitespace, dropping empty pieces. -/
def pyWords (s : String) : List String :=
  wordsAux [] s.toList

/-- An embedding vector returned by the upstream.  The adapter never inspects
vectors, only moves them around, so their numeric contents are modelled
with integers. -/
abbrev Vec := List Int

/-- The part of an upstream HTTP response the handler reads:
`response.status_code`, `response.json()` (parsed as a list of vectors),
and `response.text` (the raw body). -/
structure HttpResponse where
  status_code : Nat
  json : List Vec
  text : String
deriving DecidableEq, Repr

/-- Outcome of one `requests.post` call: either a response, or a transport
exception carrying its message (`str(e)`). -/
inductive UpstreamResult where
  | ok (r : HttpResponse)
  | err (e : String)
deriving DecidableEq, Repr

/-- The upstream endpoint, as a function from the batch payload (the JSON
array sent as the request body) to the outcome of the call. -/
abbrev Upstream := List JVal → UpstreamResult

/-- Max batch size for the OVH API (`MAX_BATCH_SIZE = 10` in the source). -/
def MAX_BATCH_SIZE : Nat := 10

/-- The error message built at line 49 of the source:
`f"Error from OVH API (batch starting at index {i}): {response.status_code}, response: {response.text}"`. -/
def batchErrorMsg (i status : Nat) (text : String) : String :=
  "Error from OVH API (batch starting at index " ++ toString i ++ "): "
    ++ toString status ++ ", response: " ++ text

/-- `data.get("input", "")`: the `input` field of the request body, with the
empty string as the default when the key is absent. -/
def getInput : Option JVal → JVal
  | none => JVal.str ""
  | some v => v

/-- Normalisation of the `input` value: an array is used as-is, any other
value is wrapped into a one-element list (lines 21-24 of the source). -/
def normalizeInput (input : Option JVal) : List JVal :=
  match getInput input with
  | JVal.arr xs => xs
  | v => [v]

/-- One `EmbeddingResult` entry of the success response's `data` array. -/
structure EmbeddingResult where
  embedding : Vec
  index : Nat
  object : String
deriving DecidableEq, Repr

/-- The `usage` object of the success response. -/
structure Usage where
  prompt_tokens : Nat
  total_tokens : Nat
deriving DecidableEq, Repr

/-- The body of a success response. -/
structure EmbeddingResponse where
  data : List EmbeddingResult
  model : String
  object : String
  usage : Usage
deriving DecidableEq, Repr

/-- The handler's reply: either a success body (HTTP 200) or an error body
`{"error": msg}` (HTTP 500). -/
inductive Response where
  | ok (body : EmbeddingResponse)
  | error (msg : String)
deriving DecidableEq, Repr

/-- The HTTP status code attached to a reply. -/
def Response.httpStatus : Response → Nat
  | .ok _ => 200
  | .error _ => 500

/-- Token usage: `sum(len(str(t).split()) for t in texts)` (lines 66-67). -/
def usageTokens (texts : List JVal) : Nat :=
  (texts.map (fun t => (pyWords (pyStr t)).length)).sum

/-- The body of the `for i in range(0, len(texts), MAX_BATCH_SIZE)` loop
(lines 33-50), iterating over the list of batch start indices.  For each
start `i` it slices `texts[i:i+MAX_BATCH_SIZE]`, posts it upstream, and on
a 200 extends the accumulator, otherwise stops with the error the handler
returns.  The first component records the upstream calls actually issued,
as pairs (start index, batch payload), in order. -/
def loopGo (up : Upstream) (texts : List JVal) :
    List Nat → List (Nat × List JVal) × Except String (List Vec)
  | [] => ([], Except.ok [])
  | i :: rest =>
    match up ((texts.drop i).take MAX_BATCH_SIZE) with
    | .ok r =>
      if r.status_code = 200 then
        ((i, (texts.drop i).take MAX_BATCH_SIZE) :: (loopGo up texts rest).1,
         (loopGo up texts rest).2.map (fun acc => r.json ++ acc))
      else
        ([(i, (texts.drop i).take MAX_BATCH_SIZE)],
         Except.error (batchErrorMsg i r.status_code r.text))
    | .err e => ([(i, (texts.drop i).take MAX_BATCH_SIZE)], Except.error e)

/-- The whole batching loop: `range(0, len(texts), MAX_BATCH_SIZE)` visits
ceil(len/10) start indices `0, 10, 20, ...`. -/
def runBatches (up : Upstream) (texts : List JVal) :
    List (Nat × List JVal) × Except String (List Vec) :=
  loopGo up texts
    (List.range' 0 ((texts.length + MAX_BATCH_SIZE - 1) / MAX_BATCH_SIZE) MAX_BATCH_SIZE)

/-- The request handler `get_embeddings` (lines 14-71).  Its argument `req`
models `request.json` followed by `.get("input", "")`: `Except.error e`
when parsing the request body raises an exception with message `e`, and
`Except.ok input` with the optional `input` field otherwise.  The result
pairs the trace of upstream calls issued with the HTTP reply. -/
def get_embeddings (up : Upstream) (req : Except String (Option JVal)) :
    List (Nat × List JVal) × Response :=
  match req with
  | .error e => ([], Response.error e)
  | .ok input =>
    let texts := normalizeInput input
    let res := runBatches up texts
    match res.2 with
    | .error e => (res.1, Response.error e)
    | .ok all_embeddings =>
      (res.1,
       Response.ok
         { data := all_embeddings.enum.map
             (fun p => { embedding := p.2, index := p.1, object := "embedding" }),
           model := "ovh-embeddings",
           object := "list",
           usage := { prompt_tokens := usageTokens texts,
                      total_tokens := usageTokens texts } })

/-! Concrete fixtures used to exercise the model on closed inputs. -/

/-- A deterministic per-text vector: the length of the text's string form. -/
def fW : JVal → Vec := fun t => [Int.ofNat (pyStr t).length]

/-- An upstream that always succeeds, echoing one vector per submitted text. -/
def upGood : Upstream := fun b => .ok ⟨200, b.map fW, ""⟩

/-- An upstream that succeeds on full batches of 10 and answers HTTP 503 on
any shorter batch. -/
def up503 : Upstream := fun b =>
  if b.length = 10 then .ok ⟨200, b.map fW, ""⟩ else .ok ⟨503, [], "unavailable"⟩

/-- An upstream that always answers HTTP 201 with one vector. -/
def up201 : Upstream := fun _ => .ok ⟨201, [[1]], "created"⟩

/-- An upstream whose transport always fails with message "boom". -/
def upBoom : Upstream := fun _ => .err "boom"

/-- An upstream that succeeds on full batches of 10 and fails at the
transport level on any shorter batch, with the same message "boom". -/
def upBoomLate : Upstream := fun b =>
  if b.length = 10 then .ok ⟨200, b.map fW, ""⟩ else .err "boom"

/-- An upstream that returns two vectors regardless of the batch size. -/
def upTwoVecs : Upstream := fun _ => .ok ⟨200, [[1], [2]], "over"⟩

/-- The input texts "0", "1", ..., "n-1". -/
def strs (n : Nat) : List JVal := (List.range n).map (fun k => JVal.str (toString k))

/-- The request input of the usage-accounting example: `["a b", "c"]`. -/
def inputC4 : Option JVal := some (JVal.arr [JVal.str "a b", JVal.str "c"])

/-- The success body `get_embeddings` produces for `inputC4` under `upGood`. -/
def bodyC4 : EmbeddingResponse :=
  { data := [⟨[3], 0, "embedding"⟩, ⟨[1], 1, "embedding"⟩],
    model := "ovh-embeddings", object := "list",
    usage := { prompt_tokens := 3, total_tokens := 3 } }

/-- The success body `get_embeddings` produces for a single text "x" under
`upTwoVecs`: two data entries for one submitted text. -/
def bodyC9 : EmbeddingResponse :=
  { data := [⟨[1], 0, "embedding"⟩, ⟨[2], 1, "embedding"⟩],
    model := "ovh-embeddings", object := "list",
    usage := { prompt_tokens := 1, total_tokens := 1 } }

/-! Helper lemmas about the batching loop. -/

/-- When every upstream call reports status 200, the loop visits every start
index and records one call per start, with the corresponding slice. -/
lemma loopGo_fst_ok (up : Upstream) (texts : List JVal)
    (hup : ∀ b, ∃ r, up b = UpstreamResult.ok r ∧ r.status_code = 200) :
    ∀ starts : List Nat,
      (loopGo up texts starts).1 =
        starts.map (fun i => (i, (texts.drop i).take MAX_BATCH_SIZE)) := by
  intro starts
  induction starts with
  | nil => simp [loopGo]
  | cons i rest ih =>
    obtain ⟨r, hr, h200⟩ := hup ((texts.drop i).take MAX_BATCH_SIZE)
    simp [loopGo, hr, h200, ih]

/-- When the upstream echoes one vector per text (via `f`) with status 200,
the loop returns the trace of all starts and the concatenation of the
per-batch vectors. -/
lemma loopGo_good (up : Upstream) (texts : List JVal) (f : JVal → Vec)
    (hup : ∀ b, ∃ t, up b = UpstreamResult.ok ⟨200, b.map f, t⟩) :
    ∀ starts : List Nat,
      loopGo up texts starts =
        (starts.map (fun i => (i, (texts.drop i).take MAX_BATCH_SIZE)),
         Except.ok
           (((starts.map (fun i => (texts.drop i).take MAX_BATCH_SIZE)).flatten).map f)) := by
  intro starts
  induction starts with
  | nil => simp [loopGo]
  | cons i rest ih =>
    obtain ⟨t, ht⟩ := hup ((texts.drop i).take MAX_BATCH_SIZE)
    simp [loopGo, ht, ih, Except.map, List.map_append]

/-- If the batch at start `i` gets a non-200 response and every batch listed
before it got a 200, the loop stops at `i` with the formatted error. -/
lemma loopGo_fail (up : Upstream) (texts : List JVal) (r : HttpResponse)
    (hst : r.status_code ≠ 200) :
    ∀ (s₁ : List Nat) (i : Nat) (s₂ : List Nat),
      (∀ j ∈ s₁, ∃ rj, up ((texts.drop j).take MAX_BATCH_SIZE) = UpstreamResult.ok rj ∧
        rj.status_code = 200) →
      up ((texts.drop i).take MAX_BATCH_SIZE) = UpstreamResult.ok r →
      loopGo up texts (s₁ ++ i :: s₂) =
        (s₁.map (fun j => (j, (texts.drop j).take MAX_BATCH_SIZE)) ++
           [(i, (texts.drop i).take MAX_BATCH_SIZE)],
         Except.error (batchErrorMsg i r.status_code r.text)) := by
  intro s₁
  induction s₁ with
  | nil =>
    intro i s₂ _ hi
    simp [loopGo, hi, hst]
  | cons j js ih =>
    intro i s₂ h1 hi
    obtain ⟨rj, hj, hj200⟩ := h1 j (List.mem_cons_self j js)
    have := ih i s₂ (fun x hx => h1 x (List.mem_cons_of_mem _ hx)) hi
    simp [loopGo, hj, hj200, this, Except.map]

/-- If the transport for the batch at start `i` fails and every batch listed
before it got a 200, the loop stops at `i` with the exception's message. -/
lemma loopGo_transport (up : Upstream) (texts : List JVal) (e : String) :
    ∀ (s₁ : List Nat) (i : Nat) (s₂ : List Nat),
      (∀ j ∈ s₁, ∃ rj, up ((texts.drop j).take MAX_BATCH_SIZE) = UpstreamResult.ok rj ∧
        rj.status_code = 200) →
      up ((texts.drop i).take MAX_BATCH_SIZE) = UpstreamResult.err e →
      loopGo up texts (s₁ ++ i :: s₂) =
        (s₁.map (fun j => (j, (texts.drop j).take MAX_BATCH_SIZE)) ++
           [(i, (texts.drop i).take MAX_BATCH_SIZE)],
         Except.error e) := by
  intro s₁
  induction s₁ with
  | nil =>
    intro i s₂ _ hi
    simp [loopGo, hi]
  | cons j js ih =>
    intro i s₂ h1 hi
    obtain ⟨rj, hj, hj200⟩ := h1 j (List.mem_cons_self j js)
    have := ih i s₂ (fun x hx => h1 x (List.mem_cons_of_mem _ hx)) hi
    simp [loopGo, hj, hj200, this, Except.map]

/-- Concatenating the 10-wide slices at starts `s, s+10, ...` (k of them)
reproduces `(l.drop s).take (10*k)`. -/
lemma flatten_slices (l : List JVal) :
    ∀ (k s : Nat),
      ((List.range' s k MAX_BATCH_SIZE).map
          (fun i => (l.drop i).take MAX_BATCH_SIZE)).flatten =
        (l.drop s).take (MAX_BATCH_SIZE * k) := by
  intro k
  induction k with
  | zero => intro s; simp
  | succ k ih =>
    intro s
    rw [List.range'_succ, List.map_cons, List.flatten_cons, ih (s + MAX_BATCH_SIZE)]
    rw [show MAX_BATCH_SIZE * (k + 1) = MAX_BATCH_SIZE + MAX_BATCH_SIZE * k by ring]
    rw [List.take_add, List.drop_drop]

/-- The batching of the whole input: the slices at starts `0, 10, ...`
(ceil(n/10) of them) concatenate back to the input list. -/
lemma slices_flatten_all (l : List JVal) :
    ((List.range' 0 ((l.length + MAX_BATCH_SIZE - 1) / MAX_BATCH_SIZE) MAX_BATCH_SIZE).map
        (fun i => (l.drop i).take MAX_BATCH_SIZE)).flatten = l := by
  rw [flatten_slices, List.drop_zero]
  apply List.take_of_length_le
  show l.length ≤ 10 * ((l.length + 10 - 1) / 10)
  omega

/-- The trace the handler reports is the trace of the batching loop. -/
lemma get_embeddings_fst (up : Upstream) (input : Option JVal) :
    (get_embeddings up (Except.ok input)).1 = (runBatches up (normalizeInput input)).1 := by
  unfold get_embeddings
  cases h : (runBatches up (normalizeInput input)).2 <;> simp [h]

/-- Unfolding the handler when the batching loop fails. -/
lemma get_embeddings_error (up : Upstream) (input : Option JVal)
    (T : List (Nat × List JVal)) (e : String)
    (h : runBatches up (normalizeInput input) = (T, Except.error e)) :
    get_embeddings up (Except.ok input) = (T, Response.error e) := by
  simp [get_embeddings, h]

/-- Unfolding the handler when the batching loop succeeds. -/
lemma get_embeddings_ok (up : Upstream) (input : Option JVal)
    (T : List (Nat × List JVal)) (acc : List Vec)
    (h : runBatches up (normalizeInput input) = (T, Except.ok acc)) :
    get_embeddings up (Except.ok input) =
      (T, Response.ok
        { data := acc.enum.map
            (fun p => { embedding := p.2, index := p.1, object := "embedding" }),
          model := "ovh-embeddings", object := "list",
          usage := { prompt_tokens := usageTokens (normalizeInput input),
                     total_tokens := usageTokens (normalizeInput input) } }) := by
  simp [get_embeddings, h]

/-- Inversion: a success reply determines the accumulator and the body. -/
lemma get_embeddings_ok_inv (up : Upstream) (input : Option JVal) (body : EmbeddingResponse)
    (h : (get_embeddings up (Except.ok input)).2 = Response.ok body) :
    ∃ acc, (runBatches up (normalizeInput input)).2 = Except.ok acc ∧
      body =
        { data := acc.enum.map
            (fun p => { embedding := p.2, index := p.1, object := "embedding" }),
          model := "ovh-embeddings", object := "list",
          usage := { prompt_tokens := usageTokens (normalizeInput input),
                     total_tokens := usageTokens (normalizeInput input) } } := by
  rcases hr : runBatches up (normalizeInput input) with ⟨T, res⟩
  cases res with
  | error e =>
    rw [get_embeddings_error up input T e hr] at h
    simp at h
  | ok acc =>
    refine ⟨acc, by simp [hr], ?_⟩
    rw [get_embeddings_ok up input T acc hr] at h
    simp only [Response.ok.injEq] at h
    exact h.symm

/-- The `index` fields of the assembled `data` array are `0, 1, ...`. -/
lemma data_map_index (acc : List Vec) :
    ((acc.enum.map
        (fun p => ({ embedding := p.2, index := p.1, object := "embedding" }
          : EmbeddingResult))).map (fun r => r.index)) = List.range acc.length := by
  rw [List.map_map]
  have h1 : ((fun r : EmbeddingResult => r.index) ∘
      (fun p : Nat × Vec =>
        ({ embedding := p.2, index := p.1, object := "embedding" } : EmbeddingResult)))
      = Prod.fst := rfl
  rw [h1, List.enum_eq_enumFrom, List.enumFrom_map_fst, ← List.range_eq_range']

/-- The `embedding` fields of the assembled `data` array are the accumulator. -/
lemma data_map_embedding (acc : List Vec) :
    ((acc.enum.map
        (fun p => ({ embedding := p.2, index := p.1, object := "embedding" }
          : EmbeddingResult))).map (fun r => r.embedding)) = acc := by
  rw [List.map_map]
  have h1 : ((fun r : EmbeddingResult => r.embedding) ∘
      (fun p : Nat × Vec =>
        ({ embedding := p.2, index := p.1, object := "embedding" } : EmbeddingResult)))
      = Prod.snd := rfl
  rw [h1, List.enum_eq_enumFrom, List.enumFrom_map_snd]

/-- The trace of a single-text request is one call carrying that text. -/
lemma runBatches_singleton_fst (up : Upstream) (t : JVal) :
    (runBatches up [t]).1 = [(0, [t])] := by
  have hX : (([t] : List JVal).drop 0).take MAX_BATCH_SIZE = [t] := by
    simp [MAX_BATCH_SIZE]
  have hrg : List.range' 0 ((([t] : List JVal).length + MAX_BATCH_SIZE - 1) / MAX_BATCH_SIZE)
      MAX_BATCH_SIZE = [0] := by simp [MAX_BATCH_SIZE]
  unfold runBatches
  rw [hrg]
  simp only [loopGo, hX]
  cases h : up [t] with
  | ok r => by_cases h200 : r.status_code = 200 <;> simp [h, h200]
  | err e => simp [h]

/-- One loop step on a 200 response: record the call, keep going, and
prepend the batch's vectors to whatever the rest accumulates. -/
lemma loopGo_cons_ok (up : Upstream) (texts : List JVal) (i : Nat) (rest : List Nat)
    (r : HttpResponse)
    (h : up ((texts.drop i).take MAX_BATCH_SIZE) = UpstreamResult.ok r)
    (h200 : r.status_code = 200) :
    loopGo up texts (i :: rest) =
      ((i, (texts.drop i).take MAX_BATCH_SIZE) :: (loopGo up texts rest).1,
       (loopGo up texts rest).2.map (fun acc => r.json ++ acc)) := by
  simp [loopGo, h, h200]

/-- One loop step on a non-200 response: stop with the formatted error. -/
lemma loopGo_cons_bad (up : Upstream) (texts : List JVal) (i : Nat) (rest : List Nat)
    (r : HttpResponse)
    (h : up ((texts.drop i).take MAX_BATCH_SIZE) = UpstreamResult.ok r)
    (h200 : r.status_code ≠ 200) :
    loopGo up texts (i :: rest) =
      ([(i, (texts.drop i).take MAX_BATCH_SIZE)],
       Except.error (batchErrorMsg i r.status_code r.text)) := by
  simp [loopGo, h, h200]

/-- One loop step on a transport failure: stop with the exception message. -/
lemma loopGo_cons_err (up : Upstream) (texts : List JVal) (i : Nat) (rest : List Nat)
    (e : String)
    (h : up ((texts.drop i).take MAX_BATCH_SIZE) = UpstreamResult.err e) :
    loopGo up texts (i :: rest) =
      ([(i, (texts.drop i).take MAX_BATCH_SIZE)], Except.error e) := by
  simp [loopGo, h]

/-- A failing loop has issued at least one call. -/
lemma loopGo_error_trace_ne (up : Upstream) (texts : List JVal) (starts : List Nat)
    (e : String) (h : (loopGo up texts starts).2 = Except.error e) :
    (loopGo up texts starts).1 ≠ [] := by
  cases starts with
  | nil => simp [loopGo] at h
  | cons i rest =>
    cases hu : up ((texts.drop i).take MAX_BATCH_SIZE) with
    | ok r => by_cases h200 : r.status_code = 200 <;> simp [loopGo, hu, h200]
    | err e2 => simp [loopGo, hu]

/-- Inversion: an error reply determines the batching loop's error. -/
lemma get_embeddings_error_inv (up : Upstream) (input : Option JVal) (e : String)
    (h : (get_embeddings up (Except.ok input)).2 = Response.error e) :
    (runBatches up (normalizeInput input)).2 = Except.error e := by
  rcases hr : runBatches up (normalizeInput input) with ⟨T, res⟩
  cases res with
  | error e2 =>
    rw [get_embeddings_error up input T e2 hr] at h
    simp at h
    simp [hr, h]
  | ok acc =>
    rw [get_embeddings_ok up input T acc hr] at h
    simp at h

/-! The claims. -/

/-- Claim C1: for every normalized input sequence, when every upstream batch
call succeeds with status 200 and returns one vector per submitted text in
submission order (vector `f t` for text `t`), the success response's `data`
array has exactly `n` entries whose `index` fields are `0..n-1` in that
exact order, and the embedding at position `k` is the upstream vector for
input text `k`: global input order is preserved across batches. -/
theorem claim_C1 (up : Upstream) (f : JVal → Vec) (input : Option JVal)
    (hup : ∀ b, ∃ t, up b = UpstreamResult.ok ⟨200, b.map f, t⟩) :
    ∃ body, (get_embeddings up (Except.ok input)).2 = Response.ok body ∧
      body.data.length = (normalizeInput input).length ∧
      body.data.map (fun r => r.index) = List.range (normalizeInput input).length ∧
      body.data.map (fun r => r.embedding) = (normalizeInput input).map f := by
  have hrb : runBatches up (normalizeInput input) =
      ((List.range' 0 (((normalizeInput input).length + MAX_BATCH_SIZE - 1) / MAX_BATCH_SIZE)
          MAX_BATCH_SIZE).map
        (fun i => (i, ((normalizeInput input).drop i).take MAX_BATCH_SIZE)),
       Except.ok ((normalizeInput input).map f)) := by
    have hloop := loopGo_good up (normalizeInput input) f hup
      (List.range' 0 (((normalizeInput input).length + MAX_BATCH_SIZE - 1) / MAX_BATCH_SIZE)
        MAX_BATCH_SIZE)
    rw [slices_flatten_all (normalizeInput input)] at hloop
    exact hloop
  have hok := get_embeddings_ok up input _ _ hrb
  refine ⟨_, by rw [hok], ?_, ?_, ?_⟩
  · simp [List.enum_length]
  · rw [data_map_index]
    simp
  · exact data_map_embedding _

/-- Witness for C1 at 25 input texts under an echoing upstream. -/
theorem claim_C1_witness :
    ∃ body, (get_embeddings upGood (Except.ok (some (JVal.arr (strs 25))))).2 =
        Response.ok body ∧
      body.data.length = (normalizeInput (some (JVal.arr (strs 25)))).length ∧
      body.data.map (fun r => r.index) =
        List.range (normalizeInput (some (JVal.arr (strs 25)))).length ∧
      body.data.map (fun r => r.embedding) =
        (normalizeInput (some (JVal.arr (strs 25)))).map fW :=
  claim_C1 upGood fW (some (JVal.arr (strs 25))) (fun _ => ⟨"", rfl⟩)

/-- Claim C3: for every input, the normalized sequence of length n is cut
into exactly ceil(n/10) batches, issued in increasing start order; batch k
is the slice `[10k, min(10k+10, n))`, every batch has size at most 10, the
sizes sum to n, and the batches concatenate back to the input. -/
theorem claim_C3 (up : Upstream) (input : Option JVal)
    (hup : ∀ b, ∃ r, up b = UpstreamResult.ok r ∧ r.status_code = 200) :
    (get_embeddings up (Except.ok input)).1 =
      (List.range' 0 (((normalizeInput input).length + 9) / 10) 10).map
        (fun i => (i, ((normalizeInput input).drop i).take 10)) ∧
    (get_embeddings up (Except.ok input)).1.length =
      ((normalizeInput input).length + 9) / 10 ∧
    (∀ k (hk : k < (get_embeddings up (Except.ok input)).1.length),
      (get_embeddings up (Except.ok input)).1.get ⟨k, hk⟩ =
        (10 * k, ((normalizeInput input).drop (10 * k)).take 10)) ∧
    (∀ p ∈ (get_embeddings up (Except.ok input)).1, p.2.length ≤ 10) ∧
    ((get_embeddings up (Except.ok input)).1.map (fun p => p.2.length)).sum =
      (normalizeInput input).length ∧
    ((get_embeddings up (Except.ok input)).1.map (fun p => p.2)).flatten =
      normalizeInput input := by
  have harith : ((normalizeInput input).length + 10 - 1) / 10 =
      ((normalizeInput input).length + 9) / 10 := by omega
  have hfst : (get_embeddings up (Except.ok input)).1 =
      (List.range' 0 (((normalizeInput input).length + 9) / 10) 10).map
        (fun i => (i, ((normalizeInput input).drop i).take 10)) := by
    rw [get_embeddings_fst]
    have h := loopGo_fst_ok up (normalizeInput input) hup
      (List.range' 0 (((normalizeInput input).length + MAX_BATCH_SIZE - 1) / MAX_BATCH_SIZE)
        MAX_BATCH_SIZE)
    simp only [MAX_BATCH_SIZE] at h
    rw [harith] at h
    exact h
  have hflat : ((get_embeddings up (Except.ok input)).1.map (fun p => p.2)).flatten =
      normalizeInput input := by
    rw [hfst, List.map_map]
    have hcomp : ((fun p : Nat × List JVal => p.2) ∘
        (fun i => (i, ((normalizeInput input).drop i).take 10))) =
        (fun i => ((normalizeInput input).drop i).take 10) := rfl
    rw [hcomp]
    have h := slices_flatten_all (normalizeInput input)
    simp only [MAX_BATCH_SIZE] at h
    rw [harith] at h
    exact h
  refine ⟨hfst, ?_, ?_, ?_, ?_, hflat⟩
  · rw [hfst]
    simp [List.length_range']
  · intro k hk
    have hk' : k < ((List.range' 0 (((normalizeInput input).length + 9) / 10) 10).map
        (fun i => (i, ((normalizeInput input).drop i).take 10))).length := by
      rw [← hfst]; exact hk
    rw [List.get_eq_getElem]
    simp only [hfst]
    simp [List.getElem_map, List.getElem_range']
  · intro p hp
    rw [hfst] at hp
    simp only [List.mem_map] at hp
    obtain ⟨i, _, rfl⟩ := hp
    exact List.length_take_le 10 _
  · have hlen := congrArg List.length hflat
    rw [List.length_flatten, List.map_map] at hlen
    have hcomp : (List.length ∘ (fun p : Nat × List JVal => p.2)) =
        (fun p : Nat × List JVal => p.2.length) := rfl
    rw [hcomp] at hlen
    exact hlen

/-- Witness for C3 at 25 texts: 3 batches are issued. -/
theorem claim_C3_witness :
    (get_embeddings upGood (Except.ok (some (JVal.arr (strs 25))))).1.length =
      ((normalizeInput (some (JVal.arr (strs 25)))).length + 9) / 10 :=
  (claim_C3 upGood (some (JVal.arr (strs 25)))
    (fun b => ⟨⟨200, b.map fW, ""⟩, rfl, rfl⟩)).2.1

/-- Claim C4: in every success response, `prompt_tokens` and `total_tokens`
both equal the sum over the normalized input items of the number of
whitespace-separated tokens of the item's string form; the two fields are
always equal, and the empty input array yields counts of 0. -/
theorem claim_C4 (up : Upstream) (input : Option JVal) (body : EmbeddingResponse)
    (h : (get_embeddings up (Except.ok input)).2 = Response.ok body) :
    body.usage.prompt_tokens =
      ((normalizeInput input).map (fun t => (pyWords (pyStr t)).length)).sum ∧
    body.usage.total_tokens = body.usage.prompt_tokens ∧
    ∀ up2 : Upstream, ∃ b2,
      (get_embeddings up2 (Except.ok (some (JVal.arr [])))).2 = Response.ok b2 ∧
      b2.usage.prompt_tokens = 0 ∧ b2.usage.total_tokens = 0 := by
  obtain ⟨acc, hacc, rfl⟩ := get_embeddings_ok_inv up input body h
  exact ⟨rfl, rfl, fun up2 => ⟨_, rfl, rfl, rfl⟩⟩

/-- Witness for C4: input `["a b", "c"]` gives 3 tokens. -/
theorem claim_C4_witness :
    bodyC4.usage.prompt_tokens =
      ((normalizeInput inputC4).map (fun t => (pyWords (pyStr t)).length)).sum :=
  (claim_C4 upGood inputC4 bodyC4 rfl).1

/-- Claim C5: normalization uses an array as-is, wraps any non-array value
into a one-element sequence, and a missing `input` key normalizes to the
one-element sequence holding the empty string, which is then sent upstream
as one batch item (one call with payload `[""]`, not zero calls). -/
theorem claim_C5 (up : Upstream) (v : JVal) (xs : List JVal) (hv : v.isArr = false) :
    normalizeInput none = [JVal.str ""] ∧
    normalizeInput (some (JVal.arr xs)) = xs ∧
    normalizeInput (some v) = [v] ∧
    (get_embeddings up (Except.ok none)).1 = [(0, [JVal.str ""])] := by
  refine ⟨rfl, rfl, ?_, ?_⟩
  · cases v with
    | arr xs => simp [JVal.isArr] at hv
    | str s => rfl
    | num n => rfl
    | bool b => rfl
    | null => rfl
  · rw [get_embeddings_fst]
    exact runBatches_singleton_fst up (JVal.str "")

/-- Witness for C5 at the non-array value 5, the array `["a"]`, and a
missing key. -/
theorem claim_C5_witness :
    normalizeInput none = [JVal.str ""] ∧
    normalizeInput (some (JVal.arr [JVal.str "a"])) = [JVal.str "a"] ∧
    normalizeInput (some (JVal.num 5)) = [JVal.num 5] ∧
    (get_embeddings upGood (Except.ok none)).1 = [(0, [JVal.str ""])] :=
  claim_C5 upGood (JVal.num 5) [JVal.str "a"] rfl

/-- Claim C9: in every success response the `index` fields are exactly
`0, 1, ..., len(data)-1` in increasing order, and `len(data)` equals the
number of vectors the upstream actually returned across all batches (the
accumulator) — nothing checks it against the number of submitted texts. -/
theorem claim_C9 (up : Upstream) (input : Option JVal) (body : EmbeddingResponse)
    (h : (get_embeddings up (Except.ok input)).2 = Response.ok body) :
    body.data.map (fun r => r.index) = List.range body.data.length ∧
    ∃ acc, (runBatches up (normalizeInput input)).2 = Except.ok acc ∧
      body.data.map (fun r => r.embedding) = acc ∧
      body.data.length = acc.length := by
  obtain ⟨acc, hacc, rfl⟩ := get_embeddings_ok_inv up input body h
  refine ⟨?_, acc, hacc, data_map_embedding acc, ?_⟩
  · rw [data_map_index]
    congr 1
    simp [List.enum_length]
  · simp [List.enum_length]

/-- Witness for C9: one submitted text, an upstream answering two vectors;
the response succeeds with two contiguous indices. -/
theorem claim_C9_witness :
    bodyC9.data.map (fun r => r.index) = List.range bodyC9.data.length ∧
    ∃ acc, (runBatches upTwoVecs (normalizeInput (some (JVal.str "x")))).2 =
        Except.ok acc ∧
      bodyC9.data.map (fun r => r.embedding) = acc ∧
      bodyC9.data.length = acc.length :=
  claim_C9 upTwoVecs (some (JVal.str "x")) bodyC9 rfl

/-- Claim C10: an `input` value that is neither a string nor an array is not
rejected: it is wrapped as a one-element sequence, sent upstream as the sole
batch item, and its usage count is the whitespace word count of its string
form. -/
theorem claim_C10 (up : Upstream) (v : JVal) (hv : v.isArr = false) :
    normalizeInput (some v) = [v] ∧
    (get_embeddings up (Except.ok (some v))).1 = [(0, [v])] ∧
    ∀ body, (get_embeddings up (Except.ok (some v))).2 = Response.ok body →
      body.usage.prompt_tokens = (pyWords (pyStr v)).length ∧
      body.usage.total_tokens = (pyWords (pyStr v)).length := by
  have hnorm : normalizeInput (some v) = [v] := by
    cases v with
    | arr xs => simp [JVal.isArr] at hv
    | str s => rfl
    | num n => rfl
    | bool b => rfl
    | null => rfl
  refine ⟨hnorm, ?_, ?_⟩
  · rw [get_embeddings_fst, hnorm]
    exact runBatches_singleton_fst up v
  · intro body h
    obtain ⟨acc, hacc, rfl⟩ := get_embeddings_ok_inv up (some v) body h
    constructor <;>
      · show usageTokens (normalizeInput (some v)) = _
        rw [hnorm]
        simp [usageTokens]

/-- Witness for C10 at the numeric input 5. -/
theorem claim_C10_witness :
    normalizeInput (some (JVal.num 5)) = [JVal.num 5] ∧
    (get_embeddings upGood (Except.ok (some (JVal.num 5)))).1 = [(0, [JVal.num 5])] ∧
    ∀ body, (get_embeddings upGood (Except.ok (some (JVal.num 5)))).2 = Response.ok body →
      body.usage.prompt_tokens = (pyWords (pyStr (JVal.num 5))).length ∧
      body.usage.total_tokens = (pyWords (pyStr (JVal.num 5))).length :=
  claim_C10 upGood (JVal.num 5) rfl

/-- Claim C2: if the upstream call for the batch starting at global index
`10*k` returns a non-success status (every earlier batch having succeeded),
the handler aborts: the trace stops at that batch (no later batch is
issued), the reply is an error (HTTP 500, no data, no accumulated
embeddings), and the message carries the failing batch's starting index,
the upstream status code, and the raw upstream body. -/
theorem claim_C2 (up : Upstream) (input : Option JVal) (k : Nat) (r : HttpResponse)
    (hprev : ∀ j, j < k →
      ∃ rj, up (((normalizeInput input).drop (10 * j)).take 10) = UpstreamResult.ok rj ∧
        rj.status_code = 200)
    (hlt : 10 * k < (normalizeInput input).length)
    (hfail : up (((normalizeInput input).drop (10 * k)).take 10) = UpstreamResult.ok r)
    (hst : r.status_code ≠ 200) :
    get_embeddings up (Except.ok input) =
      ((List.range' 0 (k + 1) 10).map
         (fun i => (i, ((normalizeInput input).drop i).take 10)),
       Response.error (batchErrorMsg (10 * k) r.status_code r.text)) ∧
    (get_embeddings up (Except.ok input)).2.httpStatus = 500 ∧
    ∃ s1 s2 s3, batchErrorMsg (10 * k) r.status_code r.text =
      s1 ++ toString (10 * k) ++ s2 ++ toString r.status_code ++ s3 ++ r.text := by
  have hM : MAX_BATCH_SIZE = 10 := rfl
  have hmem : ∀ j ∈ List.range' 0 k 10,
      ∃ rj, up (((normalizeInput input).drop j).take MAX_BATCH_SIZE) = UpstreamResult.ok rj ∧
        rj.status_code = 200 := by
    intro j hj
    rw [List.mem_range'] at hj
    obtain ⟨i, hik, rfl⟩ := hj
    simpa [hM, Nat.zero_add] using hprev i hik
  have hloop := loopGo_fail up (normalizeInput input) r hst (List.range' 0 k 10) (10 * k)
    (List.range' (10 * k + 10) (((normalizeInput input).length + 10 - 1) / 10 - k - 1) 10)
    hmem hfail
  have hsplit : List.range' 0 (((normalizeInput input).length + 10 - 1) / 10) 10 =
      List.range' 0 k 10 ++ (10 * k) ::
        List.range' (10 * k + 10) (((normalizeInput input).length + 10 - 1) / 10 - k - 1) 10 := by
    have h1 := List.range'_append 0 k (((normalizeInput input).length + 10 - 1) / 10 - k) 10
    rw [show ((normalizeInput input).length + 10 - 1) / 10 - k + k
        = ((normalizeInput input).length + 10 - 1) / 10 by omega] at h1
    rw [← h1]
    congr 1
    rw [show ((normalizeInput input).length + 10 - 1) / 10 - k
        = (((normalizeInput input).length + 10 - 1) / 10 - k - 1) + 1 by omega,
      List.range'_succ]
    simp [Nat.zero_add]
  have hrb : runBatches up (normalizeInput input) =
      ((List.range' 0 k 10).map
          (fun j => (j, ((normalizeInput input).drop j).take 10)) ++
        [(10 * k, ((normalizeInput input).drop (10 * k)).take 10)],
       Except.error (batchErrorMsg (10 * k) r.status_code r.text)) := by
    unfold runBatches
    simp only [hM]
    rw [hsplit]
    simpa [hM] using hloop
  have htr : (List.range' 0 (k + 1) 10).map
      (fun i => (i, ((normalizeInput input).drop i).take 10)) =
      (List.range' 0 k 10).map
        (fun j => (j, ((normalizeInput input).drop j).take 10)) ++
      [(10 * k, ((normalizeInput input).drop (10 * k)).take 10)] := by
    rw [show k + 1 = 1 + k from by omega, ← List.range'_append 0 k 1 10, List.map_append]
    simp [List.range'_one, Nat.zero_add]
  have hge := get_embeddings_error up input _ _ hrb
  refine ⟨?_, ?_, ?_⟩
  · rw [hge, htr]
  · simp [hge, Response.httpStatus]
  · exact ⟨"Error from OVH API (batch starting at index ", "): ", ", response: ", rfl⟩

/-- Witness for C2: 12 texts, the second batch (starting index 10) gets a
503; the reply is the formatted error and only two calls were issued. -/
theorem claim_C2_witness :
    get_embeddings up503 (Except.ok (some (JVal.arr (strs 12)))) =
      ((List.range' 0 (1 + 1) 10).map
         (fun i => (i, ((normalizeInput (some (JVal.arr (strs 12)))).drop i).take 10)),
       Response.error (batchErrorMsg (10 * 1) 503 "unavailable")) :=
  (claim_C2 up503 (some (JVal.arr (strs 12))) 1 ⟨503, [], "unavailable"⟩
    (fun j hj => by
      have hj0 : j = 0 := by omega
      subst hj0
      exact ⟨_, rfl, rfl⟩)
    (by decide) rfl (by decide)).1

/-- Counterexample to claim C6: a 2xx status that is not exactly 200 (here
201) is NOT counted as success: the handler aborts with the formatted
error and no success body exists, refuting "every 2xx status counts as
success and its body's vectors are appended". -/
theorem claim_C6_cex :
    (get_embeddings up201 (Except.ok (some (JVal.str "x")))).2 =
      Response.error (batchErrorMsg 0 201 "created") ∧
    ∀ body, (get_embeddings up201 (Except.ok (some (JVal.str "x")))).2 ≠
      Response.ok body := by
  have h : (get_embeddings up201 (Except.ok (some (JVal.str "x")))).2 =
      Response.error (batchErrorMsg 0 201 "created") := rfl
  exact ⟨h, fun body hb => Response.noConfusion (h ▸ hb)⟩

/-- Claim C6, amended: a batch whose upstream call returns a response is
treated as a failure (aborting with the formatted error naming that batch)
exactly when its status differs from 200 — not from the whole 2xx class —
and when the status is exactly 200 the body's vectors are appended to the
front of the accumulator. -/
theorem claim_C6_amended (up : Upstream) (input : Option JVal) (r : HttpResponse)
    (hne : normalizeInput input ≠ [])
    (hr : up ((normalizeInput input).take 10) = UpstreamResult.ok r) :
    (((get_embeddings up (Except.ok input)).2 =
        Response.error (batchErrorMsg 0 r.status_code r.text) ∧
      (get_embeddings up (Except.ok input)).1 =
        [(0, (normalizeInput input).take 10)])
     ↔ r.status_code ≠ 200) ∧
    (r.status_code = 200 →
      ∀ acc, (runBatches up (normalizeInput input)).2 = Except.ok acc →
        ∃ rest, acc = r.json ++ rest) := by
  have hM : MAX_BATCH_SIZE = 10 := rfl
  have hlen : (normalizeInput input).length ≠ 0 := by
    simpa [List.length_eq_zero] using hne
  have hr0 : up (((normalizeInput input).drop 0).take MAX_BATCH_SIZE) =
      UpstreamResult.ok r := by
    simpa [hM, List.drop_zero] using hr
  have hstarts : List.range' 0
      (((normalizeInput input).length + MAX_BATCH_SIZE - 1) / MAX_BATCH_SIZE)
      MAX_BATCH_SIZE =
      0 :: List.range' 10 (((normalizeInput input).length + 10 - 1) / 10 - 1) 10 := by
    simp only [hM]
    rw [show ((normalizeInput input).length + 10 - 1) / 10
        = (((normalizeInput input).length + 10 - 1) / 10 - 1) + 1 by omega,
      List.range'_succ]
    norm_num
  have hrb_eq : runBatches up (normalizeInput input) =
      loopGo up (normalizeInput input)
        (0 :: List.range' 10 (((normalizeInput input).length + 10 - 1) / 10 - 1) 10) := by
    unfold runBatches
    rw [hstarts]
  constructor
  · constructor
    · rintro ⟨he, htr⟩ h200
      have hcons := loopGo_cons_ok up (normalizeInput input) 0
        (List.range' 10 (((normalizeInput input).length + 10 - 1) / 10 - 1) 10) r hr0 h200
      have h2 := get_embeddings_error_inv up input _ he
      rw [hrb_eq, hcons] at h2
      simp only [Except.map] at h2
      cases hres : (loopGo up (normalizeInput input)
          (List.range' 10 (((normalizeInput input).length + 10 - 1) / 10 - 1) 10)).2 with
      | ok acc => rw [hres] at h2; simp [Except.map] at h2
      | error e =>
        have hne2 := loopGo_error_trace_ne up (normalizeInput input)
          (List.range' 10 (((normalizeInput input).length + 10 - 1) / 10 - 1) 10) e hres
        have htr' : (runBatches up (normalizeInput input)).1 =
            [(0, (normalizeInput input).take 10)] := by
          rw [← get_embeddings_fst]; exact htr
        rw [hrb_eq, hcons] at htr'
        simp only [List.cons.injEq] at htr'
        exact hne2 htr'.2
    · intro hs
      have hfull : runBatches up (normalizeInput input) =
          ([(0, ((normalizeInput input).drop 0).take MAX_BATCH_SIZE)],
           Except.error (batchErrorMsg 0 r.status_code r.text)) :=
        hrb_eq.trans (loopGo_cons_bad up (normalizeInput input) 0
          (List.range' 10 (((normalizeInput input).length + 10 - 1) / 10 - 1) 10) r hr0 hs)
      have hge := get_embeddings_error up input _ _ hfull
      constructor
      · rw [hge]
      · rw [get_embeddings_fst, hfull]
        simp [hM]
  · intro h200 acc hacc
    have hcons := loopGo_cons_ok up (normalizeInput input) 0
      (List.range' 10 (((normalizeInput input).length + 10 - 1) / 10 - 1) 10) r hr0 h200
    rw [hrb_eq, hcons] at hacc
    simp only [] at hacc
    cases hres : (loopGo up (normalizeInput input)
        (List.range' 10 (((normalizeInput input).length + 10 - 1) / 10 - 1) 10)).2 with
    | ok acc2 =>
      rw [hres] at hacc
      simp [Except.map] at hacc
      exact ⟨acc2, hacc.symm⟩
    | error e =>
      rw [hres] at hacc
      simp [Except.map] at hacc

/-- Witness for the amended C6: a 201 response on a one-text request aborts
with the formatted error naming batch 0, status 201 and body "created". -/
theorem claim_C6_amended_witness :
    (get_embeddings up201 (Except.ok (some (JVal.str "x")))).2 =
      Response.error (batchErrorMsg 0 201 "created") ∧
    (get_embeddings up201 (Except.ok (some (JVal.str "x")))).1 =
      [(0, (normalizeInput (some (JVal.str "x"))).take 10)] :=
  (claim_C6_amended up201 (some (JVal.str "x")) ⟨201, [[1]], "created"⟩
    (List.cons_ne_nil _ _) rfl).1.mpr (by decide)

/-- Counterexample to claim C7: a transport failure is propagated as the raw
exception message only.  Failing at batch 0 (one text) and failing at batch
10 (eleven texts, first batch successful) produce the identical reply
`error "boom"`, and "boom" does not even contain the digit 0, so the error
response does not describe which batch (by starting index) failed. -/
theorem claim_C7_cex :
    (get_embeddings upBoom (Except.ok (some (JVal.str "x")))).2 = Response.error "boom" ∧
    (get_embeddings upBoom (Except.ok (some (JVal.str "x")))).1 =
      [(0, [JVal.str "x"])] ∧
    (get_embeddings upBoomLate (Except.ok (some (JVal.arr (strs 11))))).2 =
      Response.error "boom" ∧
    (get_embeddings upBoomLate (Except.ok (some (JVal.arr (strs 11))))).1 =
      [(0, (strs 11).take 10), (10, [JVal.str "10"])] ∧
    ("boom".toList.contains (Char.ofNat 48)) = false :=
  ⟨rfl, rfl, rfl, rfl, rfl⟩

/-- Claim C7, amended: a transport failure at the batch starting at `10*k`
(earlier batches all 200) aborts the request at that batch — no later batch
is attempted — and returns HTTP 500 whose error message is the exception's
string description; that message does not name the batch's starting index. -/
theorem claim_C7_amended (up : Upstream) (input : Option JVal) (k : Nat) (e : String)
    (hprev : ∀ j, j < k →
      ∃ rj, up (((normalizeInput input).drop (10 * j)).take 10) = UpstreamResult.ok rj ∧
        rj.status_code = 200)
    (hlt : 10 * k < (normalizeInput input).length)
    (hfail : up (((normalizeInput input).drop (10 * k)).take 10) = UpstreamResult.err e) :
    get_embeddings up (Except.ok input) =
      ((List.range' 0 (k + 1) 10).map
         (fun i => (i, ((normalizeInput input).drop i).take 10)),
       Response.error e) ∧
    (get_embeddings up (Except.ok input)).2.httpStatus = 500 := by
  have hM : MAX_BATCH_SIZE = 10 := rfl
  have hmem : ∀ j ∈ List.range' 0 k 10,
      ∃ rj, up (((normalizeInput input).drop j).take MAX_BATCH_SIZE) = UpstreamResult.ok rj ∧
        rj.status_code = 200 := by
    intro j hj
    rw [List.mem_range'] at hj
    obtain ⟨i, hik, rfl⟩ := hj
    simpa [hM, Nat.zero_add] using hprev i hik
  have hloop := loopGo_transport up (normalizeInput input) e (List.range' 0 k 10) (10 * k)
    (List.range' (10 * k + 10) (((normalizeInput input).length + 10 - 1) / 10 - k - 1) 10)
    hmem hfail
  have hsplit : List.range' 0 (((normalizeInput input).length + 10 - 1) / 10) 10 =
      List.range' 0 k 10 ++ (10 * k) ::
        List.range' (10 * k + 10) (((normalizeInput input).length + 10 - 1) / 10 - k - 1) 10 := by
    have h1 := List.range'_append 0 k (((normalizeInput input).length + 10 - 1) / 10 - k) 10
    rw [show ((normalizeInput input).length + 10 - 1) / 10 - k + k
        = ((normalizeInput input).length + 10 - 1) / 10 by omega] at h1
    rw [← h1]
    congr 1
    rw [show ((normalizeInput input).length + 10 - 1) / 10 - k
        = (((normalizeInput input).length + 10 - 1) / 10 - k - 1) + 1 by omega,
      List.range'_succ]
    simp [Nat.zero_add]
  have hrb : runBatches up (normalizeInput input) =
      ((List.range' 0 k 10).map
          (fun j => (j, ((normalizeInput input).drop j).take 10)) ++
        [(10 * k, ((normalizeInput input).drop (10 * k)).take 10)],
       Except.error e) := by
    unfold runBatches
    simp only [hM]
    rw [hsplit]
    simpa [hM] using hloop
  have htr : (List.range' 0 (k + 1) 10).map
      (fun i => (i, ((normalizeInput input).drop i).take 10)) =
      (List.range' 0 k 10).map
        (fun j => (j, ((normalizeInput input).drop j).take 10)) ++
      [(10 * k, ((normalizeInput input).drop (10 * k)).take 10)] := by
    rw [show k + 1 = 1 + k from by omega, ← List.range'_append 0 k 1 10, List.map_append]
    simp [List.range'_one, Nat.zero_add]
  have hge := get_embeddings_error up input _ _ hrb
  constructor
  · rw [hge, htr]
  · simp [hge, Response.httpStatus]

/-- Witness for the amended C7: 11 texts, transport failure at the batch
starting at index 10 after a successful first batch. -/
theorem claim_C7_amended_witness :
    get_embeddings upBoomLate (Except.ok (some (JVal.arr (strs 11)))) =
      ((List.range' 0 (1 + 1) 10).map
         (fun i => (i, ((normalizeInput (some (JVal.arr (strs 11)))).drop i).take 10)),
       Response.error "boom") ∧
    (get_embeddings upBoomLate (Except.ok (some (JVal.arr (strs 11))))).2.httpStatus = 500 :=
  claim_C7_amended upBoomLate (some (JVal.arr (strs 11))) 1 "boom"
    (fun j hj => by
      have hj0 : j = 0 := by omega
      subst hj0
      exact ⟨_, rfl, rfl⟩)
    (by decide) rfl

/-- Claim C8: every reply is either a structured error (HTTP 500, a single
error message) or a well-formed success body (HTTP 200, fixed model and
list tags, contiguous indices, every data entry tagged "embedding", equal
usage fields); and a request-body parsing exception with message `e` yields
exactly `([], error e)` — the handler is total, so no per-request error
escapes and no partial success body is ever produced. -/
theorem claim_C8 (up : Upstream) (req : Except String (Option JVal)) :
    ((∃ e, (get_embeddings up req).2 = Response.error e ∧
        (get_embeddings up req).2.httpStatus = 500) ∨
      (∃ body, (get_embeddings up req).2 = Response.ok body ∧
        (get_embeddings up req).2.httpStatus = 200 ∧
        body.model = "ovh-embeddings" ∧ body.object = "list" ∧
        body.data.map (fun r => r.index) = List.range body.data.length ∧
        (∀ r ∈ body.data, r.object = "embedding") ∧
        body.usage.total_tokens = body.usage.prompt_tokens)) ∧
    ∀ e, get_embeddings up (Except.error e) = ([], Response.error e) := by
  constructor
  · cases req with
    | error e =>
      left
      exact ⟨e, rfl, rfl⟩
    | ok input =>
      cases hbody : (get_embeddings up (Except.ok input)).2 with
      | error e =>
        left
        exact ⟨e, rfl, rfl⟩
      | ok body =>
        right
        obtain ⟨acc, hacc, rfl⟩ := get_embeddings_ok_inv up input body hbody
        refine ⟨_, rfl, rfl, rfl, rfl, ?_, ?_, rfl⟩
        · rw [data_map_index]
          congr 1
          simp [List.enum_length]
        · intro r hr
          simp only [List.mem_map] at hr
          obtain ⟨p, _, rfl⟩ := hr
          rfl
  · intro e
    rfl

end OvhAdapter
